import Mathlib

/-!
A shallow embedding of the data pipeline of src/project.py: the row model of
the vehicle-inspection CSV, the coordinate extractor, the sidebar filter
pipeline, the aggregation computations behind each chart, the map-marker
builder, and the data loader, together with theorems settling the
specification claims. Prices are modelled as exact rationals; cells that can
be missing in the data (pandas NaN) are Option-valued.
-/

/-- Models one row of the controle_techn CSV as loaded by pandas. -/
structure Row where
  cct_code_dept : Option String
  cat_vehicule_libelle : Option String
  cat_energie_libelle : Option String
  prix_visite : Option ℚ
  date_application_visite : Option String
  cct_denomination : String
  coordgeo : String
deriving DecidableEq

/-- Numeric value of a list of decimal digit characters, most significant
first. -/
def natOfDigits (l : List Char) : Nat :=
  l.foldl (fun n c => 10 * n + (c.toNat - 48)) 0

/-- Models the decimal fragment of Python float conversion: optional sign,
integer digits, optional dot and fraction digits, at least one digit
overall. -/
def parseFloat (l : List Char) : Option ℚ :=
  let neg : Bool := l.head? = some '-'
  let rest : List Char :=
    if l.head? = some '-' || l.head? = some '+' then l.tail else l
  let intPart := rest.takeWhile Char.isDigit
  let rest2 := rest.dropWhile Char.isDigit
  match rest2 with
  | [] =>
    if intPart.isEmpty then none
    else some (if neg then -(natOfDigits intPart : ℚ) else (natOfDigits intPart : ℚ))
  | c :: frac =>
    if c = '.' && frac.all Char.isDigit && !(intPart.isEmpty && frac.isEmpty) then
      let v : ℚ := (natOfDigits intPart : ℚ) + (natOfDigits frac : ℚ) / 10 ^ frac.length
      some (if neg then -v else v)
    else none

/-- Models Python str.split on a single separator character: splitting
"a,,b" gives ["a", "", "b"] and splitting the empty string gives [""]. -/
def splitOnChar (sep : Char) : List Char → List (List Char)
  | [] => [[]]
  | c :: rest =>
    if c = sep then [] :: splitOnChar sep rest
    else
      match splitOnChar sep rest with
      | [] => [[c]]
      | w :: ws => (c :: w) :: ws

/-- Embeds extract_coordinates of src/project.py (lines 98-103): split the
coordgeo string on the comma, convert both tokens with float, and return the
pair; the except ValueError branch (wrong token count or an unparsable token)
returns the absent pair instead of raising. -/
def extract_coordinates (s : String) : Option (ℚ × ℚ) :=
  match splitOnChar ',' s.data with
  | [a, b] =>
    match parseFloat a, parseFloat b with
    | some la, some lo => some (la, lo)
    | _, _ => none
  | _ => none

/-- Models the sidebar selections of src/project.py lines 197-229: the three
multiselect widgets (whose option lists start with the "All" sentinel) and
the price-range slider. -/
structure FilterSpec where
  departments : List String
  vehicleCategories : List String
  energyTypes : List String
  priceMin : ℚ
  priceMax : ℚ
deriving DecidableEq

/-- Embeds lines 199-200: the department filter is skipped when "All" is in
the selection, otherwise rows whose cct_code_dept lies in the selection are
kept (a missing cell is never in the selection, as with pandas isin on
NaN). -/
def deptStage (t : List Row) (sel : List String) : List Row :=
  if "All" ∈ sel then t
  else t.filter fun r =>
    match r.cct_code_dept with
    | some v => decide (v ∈ sel)
    | none => false

/-- Embeds lines 222-223, the vehicle-category filter. -/
def vehicleStage (t : List Row) (sel : List String) : List Row :=
  if "All" ∈ sel then t
  else t.filter fun r =>
    match r.cat_vehicule_libelle with
    | some v => decide (v ∈ sel)
    | none => false

/-- Embeds lines 225-226, the energy-type filter. -/
def energyStage (t : List Row) (sel : List String) : List Row :=
  if "All" ∈ sel then t
  else t.filter fun r =>
    match r.cat_energie_libelle with
    | some v => decide (v ∈ sel)
    | none => false

/-- Embeds lines 228-229, the price-range mask: a missing price compares
false on both bounds (pandas NaN comparisons) and the row is dropped. -/
def priceStage (t : List Row) (lo hi : ℚ) : List Row :=
  t.filter fun r =>
    match r.prix_visite with
    | some p => decide (lo ≤ p) && decide (p ≤ hi)
    | none => false

/-- Embeds the whole filter pipeline of lines 197-229 in source order:
department, vehicle category, energy type, then the price range. -/
def filtered_data (t : List Row) (f : FilterSpec) : List Row :=
  priceStage
    (energyStage
      (vehicleStage (deptStage t f.departments) f.vehicleCategories)
      f.energyTypes)
    f.priceMin f.priceMax

/-- Row predicate equivalent to the department stage, with the "All"
shortcut folded in as a true branch. -/
def deptPred (sel : List String) (r : Row) : Bool :=
  decide ("All" ∈ sel) ||
    match r.cct_code_dept with
    | some v => decide (v ∈ sel)
    | none => false

/-- Row predicate equivalent to the vehicle-category stage. -/
def vehPred (sel : List String) (r : Row) : Bool :=
  decide ("All" ∈ sel) ||
    match r.cat_vehicule_libelle with
    | some v => decide (v ∈ sel)
    | none => false

/-- Row predicate equivalent to the energy-type stage. -/
def enPred (sel : List String) (r : Row) : Bool :=
  decide ("All" ∈ sel) ||
    match r.cat_energie_libelle with
    | some v => decide (v ∈ sel)
    | none => false

/-- Row predicate of the price-range stage. -/
def pricePred (lo hi : ℚ) (r : Row) : Bool :=
  match r.prix_visite with
  | some p => decide (lo ≤ p) && decide (p ≤ hi)
  | none => false

/-- Conjunction of the four stage predicates (associated the way repeated
List.filter_filter rewriting produces it). -/
def rowPred (f : FilterSpec) (r : Row) : Bool :=
  ((pricePred f.priceMin f.priceMax r && enPred f.energyTypes r) &&
      vehPred f.vehicleCategories r) &&
    deptPred f.departments r

/-- Present (non-missing) prices of a table, in row order. -/
def presentPrices (t : List Row) : List ℚ :=
  t.filterMap (·.prix_visite)

/-- Models the slider default float(data['prix_visite'].min()): the least
present price (0 on an empty column, a degenerate case the slider widget
cannot produce). -/
def defaultPriceLo (t : List Row) : ℚ :=
  match presentPrices t with
  | [] => 0
  | p :: ps => ps.foldl min p

/-- Models the slider default float(data['prix_visite'].max()). -/
def defaultPriceHi (t : List Row) : ℚ :=
  match presentPrices t with
  | [] => 0
  | p :: ps => ps.foldl max p

/-- FilterSpec obtained by leaving every widget at its default: "All" in each
multiselect and the slider spanning the full price range of the table. -/
def defaultSpec (t : List Row) : FilterSpec :=
  ⟨["All"], ["All"], ["All"], defaultPriceLo t, defaultPriceHi t⟩

/-- Arithmetic mean of a list of present prices; none when the list is
empty, matching the NaN that pandas returns for an all-NaN mean. -/
def meanOpt (l : List ℚ) : Option ℚ :=
  if l.isEmpty then none else some (l.sum / l.length)

/-- Present prices of the rows whose raw date cell equals k. -/
def groupPrices (t : List Row) (k : String) : List ℚ :=
  (t.filter fun r => decide (r.date_application_visite = some k)).filterMap
    (·.prix_visite)

/-- Embeds the groupby-mean of create_price_time_series_chart (line 73): one
entry per distinct non-missing raw date value (pandas drops NaN group keys),
carrying the mean of the present prices of that date group; group-key order
is abstracted to first occurrence. -/
def create_price_time_series_chart (t : List Row) : List (String × Option ℚ) :=
  ((t.filterMap (·.date_application_visite)).dedup).map fun k =>
    (k, meanOpt (groupPrices t k))

/-- Models pandas value_counts: one entry per distinct present value with its
multiplicity; NaN cells are dropped and the output order is abstracted. -/
def value_counts (xs : List (Option String)) : List (String × Nat) :=
  let present := xs.filterMap id
  present.dedup.map fun v => (v, present.count v)

/-- Embeds the data computation of create_dept_distribution_chart
(line 31). -/
def create_dept_distribution_chart (t : List Row) : List (String × Nat) :=
  value_counts (t.map (·.cct_code_dept))

/-- Embeds the data computation of create_category_energy_charts (line 41);
the Python column name is passed as a column selector function. -/
def create_category_energy_charts (t : List Row) (col : Row → Option String) :
    List (String × Nat) :=
  value_counts (t.map col)

/-- Calendar date produced by a successful pandas to_datetime conversion. -/
structure Date where
  year : Nat
  month : Nat
  day : Nat
deriving DecidableEq

/-- Chronological comparison of two dates. -/
def Date.le (a b : Date) : Bool :=
  decide (a.year < b.year) ||
    (decide (a.year = b.year) &&
      (decide (a.month < b.month) ||
        (decide (a.month = b.month) && decide (a.day ≤ b.day))))

/-- Embeds the boolean-mask date filter of create_price_time_period_chart
(line 86); pandas to_datetime with errors coerce is abstracted as the parse
argument, and a NaT (missing cell or parse failure) compares false on both
bounds, so the row is excluded. -/
def dateRangeFilter (parse : String → Option Date) (t : List Row)
    (s e : Date) : List Row :=
  t.filter fun r =>
    match r.date_application_visite.bind parse with
    | some d => Date.le s d && Date.le d e
    | none => false

/-- Year-month bucket of a date, as in the yearmonth chart encoding. -/
def yearMonth (d : Date) : Nat × Nat :=
  (d.year, d.month)

/-- Present prices of the rows of a date bucket. -/
def bucketPrices (parse : String → Option Date) (fd : List Row)
    (ym : Nat × Nat) : List ℚ :=
  (fd.filter fun r =>
    decide ((r.date_application_visite.bind parse).map yearMonth = some ym)).filterMap
    (·.prix_visite)

/-- Embeds create_price_time_period_chart (lines 82-95): filter the rows to
the closed date range, then bucket by calendar year-month and take the mean
of the present prices per bucket (the mean aggregation of the chart
encoding); bucket order is abstracted to first occurrence. -/
def create_price_time_period_chart (parse : String → Option Date)
    (t : List Row) (s e : Date) : List ((Nat × Nat) × Option ℚ) :=
  let fd := dateRangeFilter parse t s e
  let keys :=
    (fd.filterMap fun r => (r.date_application_visite.bind parse).map yearMonth).dedup
  keys.map fun ym => (ym, meanOpt (bucketPrices parse fd ym))

/-- Concrete instantiation of the to_datetime parse argument for ISO
yyyy-mm-dd strings, used to exercise the date pipeline on concrete inputs. -/
def parseDateISO (s : String) : Option Date :=
  match splitOnChar '-' s.data with
  | [y, m, d] =>
    if (y.all Char.isDigit && !y.isEmpty) && (m.all Char.isDigit && !m.isEmpty) &&
        (d.all Char.isDigit && !d.isEmpty) then
      some ⟨natOfDigits y, natOfDigits m, natOfDigits d⟩
    else none
  | _ => none

/-- HTTP response as seen by load_data: status code and body text. -/
structure HttpResponse where
  status_code : Nat
  text : String

/-- Outcome of load_data: a parsed table, or the user-visible error text
shown by st.error together with the None return value. -/
inductive LoadResult where
  | ok (data : List Row)
  | failure (msg : String)
deriving DecidableEq

/-- Embeds load_data (lines 12-25): exactly status 200 reaches the parser, a
parser error is reported with its diagnostic, and any other status is
reported with the status code; pd.read_csv is abstracted as the read_csv
argument. -/
def load_data (read_csv : String → Except String (List Row))
    (resp : HttpResponse) : LoadResult :=
  if resp.status_code = 200 then
    match read_csv resp.text with
    | Except.ok d => LoadResult.ok d
    | Except.error e =>
      LoadResult.failure ("Failed to parse data. Parser error: " ++ e)
  else
    LoadResult.failure
      ("Failed to fetch data. Status code: " ++ toString resp.status_code)

/-- Models the top-level check data is not None: the session shows data
exactly when load_data returned a table, and otherwise falls back to the
nothing-loaded branch. -/
def sessionHasData : LoadResult → Bool
  | LoadResult.ok _ => true
  | LoadResult.failure _ => false

/-- Marker added to the folium map: popup name and location. -/
structure Marker where
  name : String
  lat : ℚ
  lon : ℚ
deriving DecidableEq

/-- Embeds the row loop of display_inspection_centers_map (lines 115-124)
with the unique_centers set carried as the seen list: a row whose name was
already seen is skipped entirely; otherwise its coordinates are parsed, a
marker is added only on success, and the name is recorded as seen in either
case. -/
def markersLoop : List Row → List String → List Marker
  | [], _ => []
  | r :: rs, seen =>
    if r.cct_denomination ∈ seen then markersLoop rs seen
    else
      match extract_coordinates r.coordgeo with
      | some c =>
        ⟨r.cct_denomination, c.1, c.2⟩ :: markersLoop rs (r.cct_denomination :: seen)
      | none => markersLoop rs (r.cct_denomination :: seen)

/-- Embeds display_inspection_centers_map (lines 106-126): the list of
markers added to the map, starting from an empty unique_centers set. -/
def display_inspection_centers_map (t : List Row) : List Marker :=
  markersLoop t []

/-- Markers bearing a given center name. -/
def markersNamed (ms : List Marker) (n : String) : List Marker :=
  ms.filter fun m => decide (m.name = n)

/-- First row of the table bearing the given center name. -/
def firstWithName (t : List Row) (n : String) : Option Row :=
  t.find? fun r => decide (r.cct_denomination = n)

/-- Marker list that the loop produces for a given center name: the one
marker of the first row bearing that name when its coordinates parse,
nothing otherwise. -/
def markerOfFirst (t : List Row) (n : String) : List Marker :=
  match firstWithName t n with
  | none => []
  | some r =>
    match extract_coordinates r.coordgeo with
    | some c => [⟨n, c.1, c.2⟩]
    | none => []

/-- Sample row builder used by the concrete tables below. -/
def mkRow (dept cat en : String) (price : Option ℚ) (date : Option String)
    (name coord : String) : Row :=
  ⟨some dept, some cat, some en, price, date, name, coord⟩

/-- Two-row table whose second row has a missing price. -/
def tblMissingPrice : List Row :=
  [mkRow "75" "M1" "Essence" (some 50) (some "2023-05-01") "A" "46.6,1.9",
   mkRow "92" "N1" "Diesel" none (some "2023-05-02") "B" "bad"]

/-- Two-row table in which every price is present. -/
def tblAllPrices : List Row :=
  [mkRow "75" "M1" "Essence" (some 50) (some "2023-05-01") "A" "46.6,1.9",
   mkRow "92" "N1" "Diesel" (some 70) none "B" "bad"]

/-- One-row table whose single date group has only a missing price. -/
def tblAllMissingGroup : List Row :=
  [mkRow "75" "M1" "Essence" none (some "2020-01-01") "A" "1,2"]

/-- Two rows on the same date with prices 10 and 20. -/
def tblMeanFifteen : List Row :=
  [mkRow "75" "M1" "Essence" (some 10) (some "2020-01-01") "A" "1,2",
   mkRow "75" "M1" "Essence" (some 20) (some "2020-01-01") "B" "1,2"]

/-- Two rows with the same center name and different valid coordinates. -/
def tblDupName : List Row :=
  [mkRow "75" "M1" "Essence" (some 10) (some "2020-01-01") "A" "1,2",
   mkRow "75" "M1" "Essence" (some 20) (some "2020-01-02") "A" "3,4"]

/-- First row of a name has malformed coordinates, a later row of the same
name has valid ones. -/
def tblBadThenGood : List Row :=
  [mkRow "75" "M1" "Essence" (some 10) (some "2020-01-01") "A" "bad",
   mkRow "75" "M1" "Essence" (some 20) (some "2020-01-02") "A" "1,2"]

/-- Row dated 2023-05-01 with price 10. -/
def rowMay1 : Row := mkRow "75" "M1" "Essence" (some 10) (some "2023-05-01") "A" "1,2"

/-- Row dated 2023-05-20 with price 20. -/
def rowMay2 : Row := mkRow "75" "M1" "Essence" (some 20) (some "2023-05-20") "B" "1,2"

/-- Four-row table for the month aggregation: two rows in May 2023 with
prices 10 and 20, one row with an unparsable date, one row outside the
range. -/
def tblMay2023 : List Row :=
  [rowMay1, rowMay2,
   mkRow "75" "M1" "Essence" (some 100) (some "garbage") "C" "1,2",
   mkRow "75" "M1" "Essence" (some 999) (some "2024-01-01") "D" "1,2"]

/-- Reader that fails on every body, exercising the parse-error branch. -/
def readCsvFail : String → Except String (List Row) :=
  fun _ => Except.error "boom"

/-! Theorems. First the filter pipeline is put in a single-filter normal
form, from which the algebraic claims follow. -/

/-- Department stage as a single filter. -/
theorem deptStage_eq_filter (t : List Row) (sel : List String) :
    deptStage t sel = t.filter (deptPred sel) := by
  unfold deptStage
  by_cases h : "All" ∈ sel
  · rw [if_pos h]
    exact (List.filter_eq_self.mpr fun a _ => by simp [deptPred, h]).symm
  · rw [if_neg h]
    exact List.filter_congr fun a _ => by simp [deptPred, h]

/-- Vehicle-category stage as a single filter. -/
theorem vehicleStage_eq_filter (t : List Row) (sel : List String) :
    vehicleStage t sel = t.filter (vehPred sel) := by
  unfold vehicleStage
  by_cases h : "All" ∈ sel
  · rw [if_pos h]
    exact (List.filter_eq_self.mpr fun a _ => by simp [vehPred, h]).symm
  · rw [if_neg h]
    exact List.filter_congr fun a _ => by simp [vehPred, h]

/-- Energy-type stage as a single filter. -/
theorem energyStage_eq_filter (t : List Row) (sel : List String) :
    energyStage t sel = t.filter (enPred sel) := by
  unfold energyStage
  by_cases h : "All" ∈ sel
  · rw [if_pos h]
    exact (List.filter_eq_self.mpr fun a _ => by simp [enPred, h]).symm
  · rw [if_neg h]
    exact List.filter_congr fun a _ => by simp [enPred, h]

/-- Price stage as a single filter. -/
theorem priceStage_eq_filter (t : List Row) (lo hi : ℚ) :
    priceStage t lo hi = t.filter (pricePred lo hi) := rfl

/-- The whole pipeline is one filter by the conjunction of the four stage
predicates. -/
theorem filtered_data_eq_filter (t : List Row) (f : FilterSpec) :
    filtered_data t f = t.filter (rowPred f) := by
  unfold filtered_data
  rw [deptStage_eq_filter, vehicleStage_eq_filter, energyStage_eq_filter,
    priceStage_eq_filter, List.filter_filter, List.filter_filter,
    List.filter_filter]
  rfl

/-- C10. applyFilters is idempotent: running the filter pipeline a second
time with the same FilterSpec returns the first run's output unchanged. -/
theorem c10_filtered_data_idempotent (t : List Row) (f : FilterSpec) :
    filtered_data (filtered_data t f) f = filtered_data t f := by
  rw [filtered_data_eq_filter t f, filtered_data_eq_filter, List.filter_filter]
  have h : (fun a => rowPred f a && rowPred f a) = rowPred f :=
    funext fun a => Bool.and_self _
  rw [h]

/-- C4. Whenever the "All" sentinel is in a multiselect selection, that
dimension's filter stage keeps every row, whatever else the selection
holds. -/
theorem c4_all_sentinel_noop (t : List Row) (sel : List String)
    (h : "All" ∈ sel) :
    deptStage t sel = t ∧ vehicleStage t sel = t ∧ energyStage t sel = t := by
  unfold deptStage vehicleStage energyStage
  simp [h]

/-- Witness for C4 at a selection holding "All" next to a specific value. -/
theorem c4_witness :
    deptStage tblMissingPrice ["All", "75"] = tblMissingPrice ∧
      vehicleStage tblMissingPrice ["All", "75"] = tblMissingPrice ∧
      energyStage tblMissingPrice ["All", "75"] = tblMissingPrice :=
  c4_all_sentinel_noop tblMissingPrice ["All", "75"] (by decide)

/-- Folding min over a list bounds every element and the start value. -/
theorem foldl_min_le (l : List ℚ) : ∀ (init x : ℚ), x ∈ l ∨ x = init →
    l.foldl min init ≤ x := by
  induction l with
  | nil =>
    intro init x h
    rcases h with h | rfl
    · cases h
    · exact le_refl _
  | cons a l ih =>
    intro init x h
    simp only [List.foldl_cons]
    rcases h with h | rfl
    · rcases List.mem_cons.mp h with rfl | hm
      · exact le_trans (ih (min init x) (min init x) (Or.inr rfl))
          (min_le_right _ _)
      · exact ih _ x (Or.inl hm)
    · exact le_trans (ih (min x a) (min x a) (Or.inr rfl)) (min_le_left _ _)

/-- Folding max over a list dominates every element and the start value. -/
theorem le_foldl_max (l : List ℚ) : ∀ (init x : ℚ), x ∈ l ∨ x = init →
    x ≤ l.foldl max init := by
  induction l with
  | nil =>
    intro init x h
    rcases h with h | rfl
    · cases h
    · exact le_refl _
  | cons a l ih =>
    intro init x h
    simp only [List.foldl_cons]
    rcases h with h | rfl
    · rcases List.mem_cons.mp h with rfl | hm
      · exact le_trans (le_max_right _ _) (ih (max init x) (max init x) (Or.inr rfl))
      · exact ih _ x (Or.inl hm)
    · exact le_trans (le_max_left _ _) (ih (max x a) (max x a) (Or.inr rfl))

/-- The default slider minimum bounds every present price. -/
theorem defaultPriceLo_le (t : List Row) (p : ℚ) (hp : p ∈ presentPrices t) :
    defaultPriceLo t ≤ p := by
  unfold defaultPriceLo
  cases hpp : presentPrices t with
  | nil => rw [hpp] at hp; cases hp
  | cons q qs =>
    rw [hpp] at hp
    rcases List.mem_cons.mp hp with rfl | hm
    · exact foldl_min_le qs p p (Or.inr rfl)
    · exact foldl_min_le qs q p (Or.inl hm)

/-- Every present price is bounded by the default slider maximum. -/
theorem le_defaultPriceHi (t : List Row) (p : ℚ) (hp : p ∈ presentPrices t) :
    p ≤ defaultPriceHi t := by
  unfold defaultPriceHi
  cases hpp : presentPrices t with
  | nil => rw [hpp] at hp; cases hp
  | cons q qs =>
    rw [hpp] at hp
    rcases List.mem_cons.mp hp with rfl | hm
    · exact le_foldl_max qs p p (Or.inr rfl)
    · exact le_foldl_max qs q p (Or.inl hm)

/-- C1 counterexample. On a table with a missing price, the pipeline at the
all-default FilterSpec is not the identity: the always-active price-range
mask drops the row whose price is missing. -/
theorem c1_counterexample :
    filtered_data tblMissingPrice (defaultSpec tblMissingPrice) ≠
      tblMissingPrice := by decide

/-- C1 (amended). The filter pipeline with every multiselect on "All" and
the price slider at its defaults returns the table unchanged, provided every
row's inspection price is present. -/
theorem c1_all_default_identity (t : List Row)
    (h : ∀ r ∈ t, (r.prix_visite).isSome = true) :
    filtered_data t (defaultSpec t) = t := by
  show priceStage (energyStage (vehicleStage (deptStage t ["All"]) ["All"]) ["All"])
      (defaultPriceLo t) (defaultPriceHi t) = t
  rw [show deptStage t ["All"] = t from if_pos (by simp),
    show vehicleStage t ["All"] = t from if_pos (by simp),
    show energyStage t ["All"] = t from if_pos (by simp)]
  apply List.filter_eq_self.mpr
  intro r hr
  obtain ⟨p, hp⟩ := Option.isSome_iff_exists.mp (h r hr)
  have hmem : p ∈ presentPrices t := List.mem_filterMap.mpr ⟨r, hr, hp⟩
  simp only [hp, Bool.and_eq_true, decide_eq_true_eq]
  exact ⟨defaultPriceLo_le t p hmem, le_defaultPriceHi t p hmem⟩

/-- Witness for C1 at a table whose prices are all present. -/
theorem c1_witness :
    filtered_data tblAllPrices (defaultSpec tblAllPrices) = tblAllPrices :=
  c1_all_default_identity tblAllPrices (by decide)

/-- C3. extract_coordinates returns the pair of numbers exactly when the
string splits on the comma into two parsable float tokens; on a wrong token
count or an unparsable token it returns the absent value instead of raising;
in particular it maps "46.6,1.9" to (46.6, 1.9), and "bad" and "1,2,3" to
absent. -/
theorem c3_extract_coordinates_spec :
    extract_coordinates "46.6,1.9" = some (233/5, 19/10) ∧
    extract_coordinates "bad" = none ∧
    extract_coordinates "1,2,3" = none ∧
    (∀ s a b x y, splitOnChar ',' s.data = [a, b] → parseFloat a = some x →
      parseFloat b = some y → extract_coordinates s = some (x, y)) ∧
    (∀ s, (¬ ∃ a b x y, splitOnChar ',' s.data = [a, b] ∧ parseFloat a = some x ∧
      parseFloat b = some y) → extract_coordinates s = none) := by
  refine ⟨?_, by decide, by decide, ?_, ?_⟩
  · unfold extract_coordinates
    simp only [show splitOnChar ',' "46.6,1.9".data =
      [['4', '6', '.', '6'], ['1', '.', '9']] from by decide]
    simp +decide [parseFloat, natOfDigits]
    norm_num
  · intro s a b x y hs ha hb
    unfold extract_coordinates
    simp only [hs, ha, hb]
  · intro s hne
    unfold extract_coordinates
    cases hsp : splitOnChar ',' s.data with
    | nil => rfl
    | cons a tl =>
      cases tl with
      | nil => rfl
      | cons b tl2 =>
        cases tl2 with
        | nil =>
          cases ha : parseFloat a with
          | none => simp [ha]
          | some x =>
            cases hb : parseFloat b with
            | none => simp [ha, hb]
            | some y => exact absurd ⟨a, b, x, y, hsp, ha, hb⟩ hne
        | cons c tl3 => rfl

/-- Witness for C3 on the two-token string "1,2". -/
theorem c3_witness : extract_coordinates "1,2" = some (1, 2) :=
  c3_extract_coordinates_spec.2.2.2.1 "1,2" ['1'] ['2'] 1 2 (by decide)
    (by decide) (by decide)

/-- Filtering markers of a given name steps through a cons by comparing the
head marker's name. -/
theorem markersNamed_cons (m : Marker) (L : List Marker) (n : String) :
    markersNamed (m :: L) n =
      if m.name = n then m :: markersNamed L n else markersNamed L n := by
  by_cases h : m.name = n <;> simp [markersNamed, h]

/-- When a name is already in the seen set, the loop never emits a marker
for it. -/
theorem markersNamed_loop_of_seen (rs : List Row) :
    ∀ (seen : List String) (n : String), n ∈ seen →
      markersNamed (markersLoop rs seen) n = [] := by
  induction rs with
  | nil => intro seen n _; rfl
  | cons r rs ih =>
    intro seen n h
    unfold markersLoop
    by_cases hs : r.cct_denomination ∈ seen
    · rw [if_pos hs]
      exact ih seen n h
    · rw [if_neg hs]
      have hne : ¬ (r.cct_denomination = n) := fun he => hs (he ▸ h)
      cases hec : extract_coordinates r.coordgeo with
      | none => exact ih _ n (List.mem_cons_of_mem _ h)
      | some c =>
        rw [markersNamed_cons, if_neg hne]
        exact ih _ n (List.mem_cons_of_mem _ h)

/-- Characterization of the loop's markers for a name not yet seen: exactly
the marker of the first row bearing that name, when its coordinates
parse. -/
theorem markersNamed_loop_eq_markerOfFirst (rs : List Row) :
    ∀ (seen : List String) (n : String), n ∉ seen →
      markersNamed (markersLoop rs seen) n = markerOfFirst rs n := by
  induction rs with
  | nil => intro seen n _; rfl
  | cons r rs ih =>
    intro seen n hn
    unfold markersLoop markerOfFirst firstWithName
    rw [List.find?_cons]
    by_cases heq : r.cct_denomination = n
    · subst heq
      rw [if_neg hn]
      simp only [decide_True]
      cases hec : extract_coordinates r.coordgeo with
      | none =>
        exact markersNamed_loop_of_seen rs _ _ (List.mem_cons_self _ _)
      | some c =>
        rw [markersNamed_cons, if_pos rfl,
          markersNamed_loop_of_seen rs _ _ (List.mem_cons_self _ _)]
    · have hn' : n ∉ r.cct_denomination :: seen := by
        intro hmem
        rcases List.mem_cons.mp hmem with h1 | h2
        · exact heq h1.symm
        · exact hn h2
      rw [decide_eq_false heq]
      show markersNamed _ n = markerOfFirst rs n
      by_cases hs : r.cct_denomination ∈ seen
      · rw [if_pos hs]
        exact ih seen n hn
      · rw [if_neg hs]
        cases hec : extract_coordinates r.coordgeo with
        | none => exact ih _ n hn'
        | some c =>
          rw [markersNamed_cons, if_neg heq]
          exact ih _ n hn'

/-- Every marker the loop emits comes from a row whose coordinates parsed
successfully. -/
theorem markersLoop_sound (rs : List Row) :
    ∀ (seen : List String) (m : Marker), m ∈ markersLoop rs seen →
      ∃ r, r ∈ rs ∧ r.cct_denomination = m.name ∧
        extract_coordinates r.coordgeo = some (m.lat, m.lon) := by
  induction rs with
  | nil => intro seen m h; cases h
  | cons r rs ih =>
    intro seen m h
    unfold markersLoop at h
    by_cases hs : r.cct_denomination ∈ seen
    · rw [if_pos hs] at h
      obtain ⟨r', hr', h1, h2⟩ := ih seen m h
      exact ⟨r', List.mem_cons_of_mem _ hr', h1, h2⟩
    · rw [if_neg hs] at h
      cases hec : extract_coordinates r.coordgeo with
      | none =>
        rw [hec] at h
        obtain ⟨r', hr', h1, h2⟩ := ih _ m h
        exact ⟨r', List.mem_cons_of_mem _ hr', h1, h2⟩
      | some c =>
        rw [hec] at h
        rcases List.mem_cons.mp h with rfl | hm
        · exact ⟨r, List.mem_cons_self _ _, rfl, by rw [hec]⟩
        · obtain ⟨r', hr', h1, h2⟩ := ih _ m hm
          exact ⟨r', List.mem_cons_of_mem _ hr', h1, h2⟩

/-- C5. The map-marker builder deduplicates by center name: the markers
bearing a name are exactly the one marker of the first row with that name
(its coordinate wins), and every marker comes from a row whose coordinates
parsed, so rows with absent coordinates produce no marker. -/
theorem c5_marker_dedup_first_seen :
    (∀ t n r, firstWithName t n = some r → ∀ la lo,
      extract_coordinates r.coordgeo = some (la, lo) →
      markersNamed (display_inspection_centers_map t) n = [⟨n, la, lo⟩]) ∧
    (∀ t m, m ∈ display_inspection_centers_map t →
      ∃ r, r ∈ t ∧ r.cct_denomination = m.name ∧
        extract_coordinates r.coordgeo = some (m.lat, m.lon)) := by
  constructor
  · intro t n r hf la lo he
    show markersNamed (markersLoop t []) n = _
    rw [markersNamed_loop_eq_markerOfFirst t [] n (List.not_mem_nil n)]
    unfold markerOfFirst
    simp only [hf, he]
  · intro t m hm
    exact markersLoop_sound t [] m hm

/-- Witness for C5 on a table with two same-name rows and different valid
coordinates: one marker, carrying the first row's coordinate. -/
theorem c5_witness :
    markersNamed (display_inspection_centers_map tblDupName) "A" =
      [⟨"A", 1, 2⟩] :=
  c5_marker_dedup_first_seen.1 tblDupName "A"
    (mkRow "75" "M1" "Essence" (some 10) (some "2020-01-01") "A" "1,2")
    (by decide) 1 2 (by decide)

/-- C6. The name of a row is recorded as seen even when its coordinate
string fails to parse, so when the first row bearing a name has malformed
coordinates, no marker is ever produced for that name, later valid rows
included. -/
theorem c6_bad_first_coordinate_blocks_name (t : List Row) (n : String)
    (r : Row) (hf : firstWithName t n = some r)
    (he : extract_coordinates r.coordgeo = none) :
    markersNamed (display_inspection_centers_map t) n = [] := by
  show markersNamed (markersLoop t []) n = []
  rw [markersNamed_loop_eq_markerOfFirst t [] n (List.not_mem_nil n)]
  unfold markerOfFirst
  simp only [hf, he]

/-- Witness for C6 on a table whose first "A" row has malformed coordinates
and whose second "A" row has valid ones: no marker at all for "A". -/
theorem c6_witness :
    markersNamed (display_inspection_centers_map tblBadThenGood) "A" = [] :=
  c6_bad_first_coordinate_blocks_name tblBadThenGood "A"
    (mkRow "75" "M1" "Essence" (some 10) (some "2020-01-01") "A" "bad")
    (by decide) (by decide)

/-- C2 counterexample. On a table whose single date group has only a missing
price, the groupby-mean keeps the group with an undefined mean instead of
omitting it. -/
theorem c2_counterexample :
    create_price_time_series_chart tblAllMissingGroup =
      [("2020-01-01", none)] ∧
    ("2020-01-01", (none : Option ℚ)) ∈
      create_price_time_series_chart tblAllMissingGroup := by
  constructor <;> decide

/-- C2 (amended). The per-date aggregation groups rows by exact raw date
value and carries the arithmetic mean of the present prices of each group;
a group whose prices are all missing appears with an undefined (null) mean
rather than being omitted. -/
theorem c2_group_mean (t : List Row) (k : String)
    (h : some k ∈ t.map (·.date_application_visite)) :
    (k, meanOpt (groupPrices t k)) ∈ create_price_time_series_chart t ∧
    (groupPrices t k = [] → (k, none) ∈ create_price_time_series_chart t) ∧
    (∀ ps, groupPrices t k = ps → ps ≠ [] →
      (k, some (ps.sum / ps.length)) ∈ create_price_time_series_chart t) := by
  obtain ⟨r, hr, hrk⟩ := List.mem_map.mp h
  have hk : k ∈ (t.filterMap (·.date_application_visite)).dedup :=
    List.mem_dedup.mpr (List.mem_filterMap.mpr ⟨r, hr, hrk⟩)
  have hmem : (k, meanOpt (groupPrices t k)) ∈
      create_price_time_series_chart t := by
    unfold create_price_time_series_chart
    exact List.mem_map.mpr ⟨k, hk, rfl⟩
  refine ⟨hmem, ?_, ?_⟩
  · intro hnil
    have hn : meanOpt (groupPrices t k) = none := by rw [hnil]; rfl
    rwa [hn] at hmem
  · intro ps hps hne
    have hie : ps.isEmpty = false := by
      cases ps with
      | nil => exact absurd rfl hne
      | cons a l => rfl
    have hm : meanOpt (groupPrices t k) = some (ps.sum / ps.length) := by
      rw [hps]
      simp [meanOpt, hie]
    rwa [hm] at hmem

/-- Witness for C2 on a two-row table sharing one date. -/
theorem c2_witness :
    ("2020-01-01", meanOpt (groupPrices tblMeanFifteen "2020-01-01")) ∈
      create_price_time_series_chart tblMeanFifteen :=
  (c2_group_mean tblMeanFifteen "2020-01-01" (by decide)).1

/-- C7. The month aggregation first drops every row whose date is outside
the closed range or unparsable (coerced to null, never an error), then
buckets by year-month and takes the mean price per bucket; on the May 2023
table with prices 10 and 20 the sole bucket's mean is 15. -/
theorem c7_mean_price_by_month :
    (∀ (parse : String → Option Date) (t : List Row) (s e : Date) (r : Row),
      r ∈ dateRangeFilter parse t s e ↔
        r ∈ t ∧ ∃ d, r.date_application_visite.bind parse = some d ∧
          Date.le s d = true ∧ Date.le d e = true) ∧
    create_price_time_period_chart parseDateISO tblMay2023 ⟨2023, 5, 1⟩
      ⟨2023, 5, 31⟩ = [((2023, 5), some 15)] := by
  constructor
  · intro parse t s e r
    unfold dateRangeFilter
    rw [List.mem_filter]
    constructor
    · rintro ⟨hrt, hp⟩
      refine ⟨hrt, ?_⟩
      cases hd : r.date_application_visite.bind parse with
      | none => simp only [hd, Bool.false_eq_true] at hp
      | some d =>
        simp only [hd, Bool.and_eq_true] at hp
        exact ⟨d, rfl, hp.1, hp.2⟩
    · rintro ⟨hrt, d, hd, h1, h2⟩
      refine ⟨hrt, ?_⟩
      simp only [hd, Bool.and_eq_true]
      exact ⟨h1, h2⟩
  · unfold create_price_time_period_chart
    simp only [show dateRangeFilter parseDateISO tblMay2023 ⟨2023, 5, 1⟩
      ⟨2023, 5, 31⟩ = [rowMay1, rowMay2] from by decide]
    simp only [show ([rowMay1, rowMay2].filterMap fun r =>
      (r.date_application_visite.bind parseDateISO).map yearMonth).dedup =
      [(2023, 5)] from by decide]
    simp only [List.map_cons, List.map_nil]
    simp only [show bucketPrices parseDateISO [rowMay1, rowMay2] (2023, 5) =
      [10, 20] from by decide]
    norm_num [meanOpt, List.sum_cons, List.sum_nil]

/-- Witness for C7: a row dated inside the range passes the date filter. -/
theorem c7_witness :
    rowMay1 ∈ dateRangeFilter parseDateISO tblMay2023 ⟨2023, 5, 1⟩
      ⟨2023, 5, 31⟩ :=
  (c7_mean_price_by_month.1 parseDateISO tblMay2023 ⟨2023, 5, 1⟩ ⟨2023, 5, 31⟩
      rowMay1).mpr
    ⟨by decide, ⟨2023, 5, 1⟩, by decide, by decide, by decide⟩

/-- C8. Loading succeeds exactly when the status is 200 and the body parses;
a non-200 status yields the user-visible failure text carrying the status
code, a parser error yields the failure text carrying the diagnostic, and in
both failure cases no table is produced and the session is left without
data. -/
theorem c8_load_data_spec (read_csv : String → Except String (List Row))
    (resp : HttpResponse) :
    ((∃ d, load_data read_csv resp = LoadResult.ok d) ↔
      (resp.status_code = 200 ∧ ∃ d, read_csv resp.text = Except.ok d)) ∧
    (resp.status_code ≠ 200 →
      load_data read_csv resp = LoadResult.failure
        ("Failed to fetch data. Status code: " ++ toString resp.status_code) ∧
      sessionHasData (load_data read_csv resp) = false) ∧
    (∀ e, resp.status_code = 200 → read_csv resp.text = Except.error e →
      load_data read_csv resp = LoadResult.failure
        ("Failed to parse data. Parser error: " ++ e) ∧
      sessionHasData (load_data read_csv resp) = false) := by
  unfold load_data
  by_cases h : resp.status_code = 200
  · rw [if_pos h]
    cases hc : read_csv resp.text with
    | ok d =>
      refine ⟨⟨fun _ => ⟨h, d, rfl⟩, fun _ => ⟨d, rfl⟩⟩, ?_, ?_⟩
      · intro hne; exact absurd h hne
      · intro e _ he; cases he
    | error e =>
      refine ⟨⟨?_, ?_⟩, ?_, ?_⟩
      · rintro ⟨d, hd⟩; cases hd
      · rintro ⟨-, d, hd⟩; cases hd
      · intro hne; exact absurd h hne
      · intro e2 _ he2
        injection he2 with he2
        subst he2
        exact ⟨rfl, rfl⟩
  · rw [if_neg h]
    refine ⟨⟨?_, ?_⟩, ?_, ?_⟩
    · rintro ⟨d, hd⟩; cases hd
    · rintro ⟨h200, -⟩; exact absurd h200 h
    · intro _; exact ⟨rfl, rfl⟩
    · intro e h200 _; exact absurd h200 h

/-- Witness for C8 at a 404 response. -/
theorem c8_witness :
    load_data readCsvFail ⟨404, "x"⟩ =
      LoadResult.failure "Failed to fetch data. Status code: 404" :=
  ((c8_load_data_spec readCsvFail ⟨404, "x"⟩).2.1 (by decide)).1

/-- The counts of value_counts add up to the number of present cells. -/
theorem value_counts_sum (xs : List (Option String)) :
    ((value_counts xs).map Prod.snd).sum = (xs.filterMap id).length := by
  simp only [value_counts]
  rw [List.map_map]
  have hc : (Prod.snd ∘ fun v => (v, (xs.filterMap id).count v)) =
      fun v => (xs.filterMap id).count v := rfl
  rw [hc]
  exact List.sum_map_count_dedup_eq_length _

/-- C9. The category-count aggregations return an empty aggregation on an
empty table, and their counts add up to the number of rows whose category
cell is present. -/
theorem c9_count_by_category :
    (create_dept_distribution_chart [] = [] ∧
      ∀ col, create_category_energy_charts [] col = []) ∧
    (∀ t, ((create_dept_distribution_chart t).map Prod.snd).sum =
      (t.filterMap (·.cct_code_dept)).length) ∧
    (∀ t col, ((create_category_energy_charts t col).map Prod.snd).sum =
      (t.filterMap col).length) := by
  refine ⟨⟨rfl, fun col => rfl⟩, ?_, ?_⟩
  · intro t
    unfold create_dept_distribution_chart
    rw [value_counts_sum, List.filterMap_map]
    rfl
  · intro t col
    unfold create_category_energy_charts
    rw [value_counts_sum, List.filterMap_map]
    rfl
